import Mathlib

/-!
# A shallow embedding of `smokesignal.py`

`smokesignal.py` is an in-process publish/subscribe module.  Its state is a
module-level `receivers = defaultdict(set)` mapping signal names to sets of
callbacks, together with a `_max_calls` attribute stored on each callback
object (so the remaining-call counter is per callback, not per signal).

The embedding threads that global state explicitly:

* `Signal` is `String` (signal names).
* `CB` identifies a callback object: a plain function `func n`, a bound
  instance method `method n`, or a wrapper function `wrapper n` freshly
  created by `on` for a bound method (`n` is its creation index).
* `Val` is the runtime value passed in the `callback` position of `on`:
  a callable (`cb`), an `int`, a non-callable non-int value (`str`), or
  Python's `None` (`noneV`).
* `State.keys`/`State.sets` model the `defaultdict(set)`: `keys` is the list
  of keys present in the dict (a `defaultdict` inserts a key on every
  access, which `touch` models), `sets` gives each signal's callback set.
  A Python `set` is modelled as a duplicate-free `List CB` (`addCB` inserts
  only when absent, so membership is unique per signal; Python's set
  iteration order is arbitrary but fixed, modelled here as insertion order).
* `State.maxAttr cb` models `hasattr(cb, '_max_calls')` plus its value:
  `none` = attribute absent, `some none` = `_max_calls is None` (unlimited),
  `some (some k)` = `_max_calls == k`.
* `State.next` is the supply of fresh ids for wrapper functions made by `on`.
* `State.log` and `State.plog` are observation instrumentation (they exist so
  theorems can talk about what an emission did; nothing in the modelled code
  reads them): `log` records each actual callback invocation in order,
  `plog` records each callback handed to `_call` (processed) in order.

A callback's own behaviour when invoked is caller code, not part of the
module; it is a parameter `Env := CB → State → Res` where `Res` is either a
normal return with the new global state or a propagating exception
(`Res.err e st`: exception identity `e`, and the global state as mutated so
far — Python globals survive an exception).  Positional/keyword arguments
are passed through unchanged by `emit` and never inspected by the module,
so they are not modelled.
-/

namespace Smokesignal

abbrev Signal := String

/-- Identity of a callback object. `func` is an ordinary function or closure,
`method` a bound instance method, `wrapper` a wrapper function created by
`on` around a bound method (with its creation index). -/
inductive CB where
  | func (n : Nat)
  | method (n : Nat)
  | wrapper (n : Nat)
deriving DecidableEq

/-- A runtime value passed in the `callback` argument position of `on`:
a callable, an `int`, some other non-callable value, or `None`. -/
inductive Val where
  | cb (c : CB)
  | int (n : Int)
  | str (s : String)
  | noneV
deriving DecidableEq

/-- The module-level mutable state of `smokesignal`, plus two ghost logs. -/
structure State where
  keys : List Signal
  sets : Signal → List CB
  maxAttr : CB → Option (Option Int)
  next : Nat
  log : List CB
  plog : List CB

/-- The initial module state: empty `receivers`, no `_max_calls` attributes. -/
def initState : State :=
  { keys := [], sets := fun _ => [], maxAttr := fun _ => none,
    next := 0, log := [], plog := [] }

/-- Result of running effectful code: normal return, or a propagating
exception `e` (the global state is kept, as Python globals survive). -/
inductive Res where
  | ok (st : State)
  | err (e : Nat) (st : State)

/-- The state carried by a `Res` (`emit` returns `None` in Python; what a
caller can observe afterwards is the global state). -/
def Res.state : Res → State
  | .ok st => st
  | .err _ st => st

/-- Whether the result is a normal return. -/
def Res.isOk : Res → Bool
  | .ok _ => true
  | .err _ _ => false

/-- The behaviour of each callback when invoked: caller code that may read
and mutate the module state and may raise. -/
abbrev Env := CB → State → Res

/-- `receivers[s]` on a `defaultdict` inserts the key `s` when absent. -/
def touch (st : State) (s : Signal) : State :=
  if s ∈ st.keys then st else { st with keys := st.keys ++ [s] }

/-- Replace the callback set stored under a signal. -/
def setSet (st : State) (s : Signal) (v : List CB) : State :=
  { st with sets := Function.update st.sets s v }

/-- `set.add`: membership is unique, adding a present element is a no-op. -/
def addCB (l : List CB) (c : CB) : List CB :=
  if c ∈ l then l else l ++ [c]

/-- `responds_to(callback, signal)`: reads `receivers[signal]` (a
`defaultdict` access, hence the `touch`) and tests membership. -/
def responds_to (st : State) (cb : CB) (s : Signal) : State × Bool :=
  (touch st s, decide (cb ∈ st.sets s))

/-- `signals(callback)`: `tuple(s for s in receivers if responds_to(callback, s))`.
Every `s` iterated is already a key, so the `responds_to` accesses do not
change the state. -/
def signals (st : State) (cb : CB) : List Signal :=
  st.keys.filter (fun s => decide (cb ∈ st.sets s))

/-- `disconnect(callback)`: removes the callback from every signal it
currently responds to (the tuple `signals(callback)` is built before the
loop runs). -/
def disconnect (st : State) (cb : CB) : State :=
  (signals st cb).foldl (fun st s => setSet st s ((st.sets s).erase cb)) st

/-- `disconnect_from(callback, signals)`: removes the callback from the
given signals only, skipping signals it does not respond to. -/
def disconnect_from (st : State) (cb : CB) (sigs : List Signal) : State :=
  sigs.foldl
    (fun st s =>
      let p := responds_to st cb s
      if p.2 then setSet p.1 s ((p.1.sets s).erase cb) else p.1) st

/-- First two lines of `_call`: `if not hasattr(callback, '_max_calls'):
callback._max_calls = None`. -/
def hasattrFix (st : State) (cb : CB) : State :=
  match st.maxAttr cb with
  | none => { st with maxAttr := Function.update st.maxAttr cb (some none) }
  | some _ => st

/-- An actual invocation `callback(*args, **kwargs)`: recorded in the ghost
`log`, then the callback's own behaviour runs. -/
def invoke (env : Env) (st : State) (cb : CB) : Res :=
  env cb { st with log := st.log ++ [cb] }

/-- `_call(callback, ...)`: ensures the `_max_calls` attribute exists;
`None` means no limit (invoke); a value `≤ 0` means disconnect instead of
invoking; otherwise decrement, then invoke.  The ghost `plog` records that
the callback was processed. -/
def call_ (env : Env) (st : State) (cb : CB) : Res :=
  let st := { st with plog := st.plog ++ [cb] }
  let st := hasattrFix st cb
  match st.maxAttr cb with
  | some none => invoke env st cb
  | some (some n) =>
      if n ≤ 0 then .ok (disconnect st cb)
      else invoke env
        { st with maxAttr := Function.update st.maxAttr cb (some (some (n - 1))) } cb
  | none => invoke env st cb

/-- The loop body of `emit`: `_call` each callback of the snapshot in order;
an exception propagates at once, skipping the rest. -/
def callList (env : Env) : List CB → State → Res
  | [], st => .ok st
  | c :: cs, st =>
      match call_ env st c with
      | .ok st => callList env cs st
      | .err e st => .err e st

/-- `emit(signal, ...)`: takes a copy of `receivers[signal]` (the
`defaultdict` access touches the key; `set(...)` snapshots it) and `_call`s
each member. -/
def emit (env : Env) (st : State) (s : Signal) : Res :=
  let st := touch st s
  callList env (st.sets s) st

/-- What `on` returns: either the registered callback itself (from `_on`),
or `partial(_on, signals, max_calls=max_calls)` — a registrar awaiting the
callback (the decorator form). -/
inductive OnRet where
  | registrar (sigs : List Signal) (maxc : Option Int)
  | cb (c : CB)
deriving DecidableEq

/-- Result of `on`/`_on`: normal return with a value, or the
`AssertionError('Signal callbacks must be callable')` raised by `_on`. -/
inductive OnR where
  | ok (st : State) (ret : OnRet)
  | assertErr (st : State)

/-- The state after an `on`/`_on` call (an `AssertionError` leaves the
registry as it was: the assertion is the first statement of `_on`). -/
def OnR.state : OnR → State
  | .ok st _ => st
  | .assertErr st => st

/-- Whether `on`/`_on` raised the assertion. -/
def OnR.isErr : OnR → Bool
  | .ok _ _ => false
  | .assertErr _ => true

/-- The value returned by `on`/`_on` (none if the assertion was raised). -/
def OnR.ret : OnR → Option OnRet
  | .ok _ r => some r
  | .assertErr _ => none

/-- `callable(v)` for the values we model: only `CB`s are invocable. -/
def Val.callable : Val → Bool
  | .cb _ => true
  | _ => false

/-- `_on(on_signals, callback, max_calls)`: asserts the callback is
callable before touching anything, sets `callback._max_calls = max_calls`
unconditionally, then adds the callback to each signal's set
(`receivers[signal].add(callback)`, a `defaultdict` access).  The helper
attributes (`responds_to`, `signals`, `disconnect`, `disconnect_from`)
that `_on` caches on the callback are pre-bound shortcuts to the functions
modelled above and carry no further state, so they are not modelled. -/
def on_ (st : State) (on_signals : List Signal) (callback : Val)
    (max_calls : Option Int) : OnR :=
  match callback with
  | .cb c =>
      let st := { st with maxAttr := Function.update st.maxAttr c (some max_calls) }
      let st := on_signals.foldl
        (fun st s => setSet (touch st s) s (addCB ((touch st s).sets s) c)) st
      .ok st (.cb c)
  | _ => .assertErr st

/-- `on(signals, callback=None, max_calls=None)`: an `int` or `None` in the
callback position selects the decorator form (an `int` is re-interpreted as
`max_calls`) and returns the `partial`; a bound method is wrapped in a
freshly created plain function before registration; anything else goes to
`_on` directly. -/
def on' (st : State) (sigs : List Signal) (callback : Val)
    (max_calls : Option Int) : OnR :=
  match callback with
  | .int n => .ok st (.registrar sigs (some n))
  | .noneV => .ok st (.registrar sigs max_calls)
  | .cb (.method _) =>
      let w : CB := .wrapper st.next
      on_ { st with next := st.next + 1 } sigs (.cb w) max_calls
  | c => on_ st sigs c max_calls

/-- `once(signals, callback)` = `on(signals, callback, max_calls=1)`. -/
def once (st : State) (sigs : List Signal) (callback : Val) : OnR :=
  on' st sigs callback (some 1)

/-- `clear(*signals)`: with no arguments the loop runs over
`receivers.keys()`; each `receivers[signal].clear()` is a `defaultdict`
access followed by emptying the set. -/
def clear (st : State) (sigs : List Signal) : State :=
  let ss := if sigs.isEmpty then st.keys else sigs
  ss.foldl (fun st s => setSet (touch st s) s []) st

/-- `clear_all()`: empties the set under every existing key. -/
def clear_all (st : State) : State :=
  st.keys.foldl (fun st s => setSet st s []) st

/-- The context manager `emitting(exit, enter=None)`: emit `enter` when
given, run the body, and emit `exit` in a `finally` — also when the body
raises, in which case the body's exception resumes propagating after the
exit emission (unless that emission itself raises). -/
def emitting (env : Env) (st : State) (exitSig : Signal)
    (enterSig : Option Signal) (body : State → Res) : Res :=
  let r := match enterSig with
    | some e => emit env st e
    | none => .ok st
  match r with
  | .err e st => .err e st
  | .ok st =>
      match body st with
      | .ok st => emit env st exitSig
      | .err e st =>
          match emit env st exitSig with
          | .ok st => .err e st
          | .err e2 st => .err e2 st

/-- The inert environment: every callback returns normally and leaves the
module state alone. -/
def envI : Env := fun _ st => .ok st

/-- An environment in which callback `func 0` is a ninja: during its own
invocation it re-registers `func 1` on signal `"x"` with `max_calls=0`
(a plain `on(...)` call); every other callback is inert. -/
def envN : Env := fun cb st =>
  if cb = CB.func 0 then .ok ((on' st ["x"] (.cb (.func 1)) (some 0)).state)
  else .ok st

/-- An environment in which callback `func 1` raises exception `7` and
every other callback is inert. -/
def envR : Env := fun cb st =>
  if cb = CB.func 1 then .err 7 st else .ok st

/-- Callback behaviours that do not touch the ghost `plog` (every behaviour
that only uses the modelled API does: `plog` is observation-only). -/
def GhostSafe (env : Env) : Prop :=
  ∀ cb st, (env cb st).state.plog = st.plog

/-- Callback behaviours that never raise. -/
def NoRaise (env : Env) : Prop :=
  ∀ cb st, (env cb st).isOk = true

lemma touch_sets (st : State) (s : Signal) : (touch st s).sets = st.sets := by
  unfold touch; split <;> rfl

lemma touch_plog (st : State) (s : Signal) : (touch st s).plog = st.plog := by
  unfold touch; split <;> rfl

lemma touch_keys_of_mem {st : State} {s : Signal} (h : s ∈ st.keys) :
    (touch st s).keys = st.keys := by
  unfold touch; rw [if_pos h]

lemma setSet_plog (st : State) (s : Signal) (v : List CB) :
    (setSet st s v).plog = st.plog := rfl

lemma setSet_keys (st : State) (s : Signal) (v : List CB) :
    (setSet st s v).keys = st.keys := rfl

lemma hasattrFix_plog (st : State) (cb : CB) :
    (hasattrFix st cb).plog = st.plog := by
  unfold hasattrFix; cases st.maxAttr cb <;> rfl

lemma disconnect_plog (st : State) (c : CB) : (disconnect st c).plog = st.plog := by
  unfold disconnect
  generalize signals st c = l
  induction l generalizing st with
  | nil => rfl
  | cons x xs ih => rw [List.foldl_cons]; exact ih _

lemma invoke_state_plog (env : Env) (hG : GhostSafe env) (st : State) (cb : CB) :
    (invoke env st cb).state.plog = st.plog :=
  hG cb _

lemma invoke_ok (env : Env) (hN : NoRaise env) (st : State) (cb : CB) :
    ∃ st', invoke env st cb = .ok st' := by
  have h := hN cb { st with log := st.log ++ [cb] }
  unfold invoke
  cases henv : env cb { st with log := st.log ++ [cb] } with
  | ok st' => exact ⟨st', rfl⟩
  | err e st' => rw [henv] at h; simp [Res.isOk] at h

lemma call_state_plog (env : Env) (hG : GhostSafe env) (st : State) (cb : CB) :
    (call_ env st cb).state.plog = st.plog ++ [cb] := by
  simp only [call_]
  split
  · rw [invoke_state_plog env hG, hasattrFix_plog]
  · split
    · show (Res.ok _).state.plog = _
      simp only [Res.state, disconnect_plog, hasattrFix_plog]
    · rw [invoke_state_plog env hG]; simp only [hasattrFix_plog]
  · rw [invoke_state_plog env hG, hasattrFix_plog]

lemma call_ok (env : Env) (hN : NoRaise env) (st : State) (cb : CB) :
    ∃ st', call_ env st cb = .ok st' := by
  simp only [call_]
  split
  · exact invoke_ok env hN _ cb
  · split
    · exact ⟨_, rfl⟩
    · exact invoke_ok env hN _ cb
  · exact invoke_ok env hN _ cb

lemma callList_ok (env : Env) (hN : NoRaise env) :
    ∀ (l : List CB) (st : State), ∃ st', callList env l st = .ok st' := by
  intro l
  induction l with
  | nil => intro st; exact ⟨st, rfl⟩
  | cons c cs ih =>
      intro st
      obtain ⟨st1, h1⟩ := call_ok env hN st c
      obtain ⟨st2, h2⟩ := ih st1
      exact ⟨st2, by simp only [callList]; rw [h1]; exact h2⟩

lemma callList_ok_plog (env : Env) (hG : GhostSafe env) :
    ∀ (l : List CB) (st st' : State), callList env l st = .ok st' →
      st'.plog = st.plog ++ l := by
  intro l
  induction l with
  | nil => intro st st' h; cases h; simp
  | cons c cs ih =>
      intro st st' h
      simp only [callList] at h
      cases hc : call_ env st c with
      | ok st1 =>
          rw [hc] at h
          have hp : st1.plog = st.plog ++ [c] := by
            have := call_state_plog env hG st c
            rw [hc] at this
            exact this
          rw [ih st1 st' h, hp]
          simp
      | err e st1 => rw [hc] at h; exact Res.noConfusion h

lemma callList_append (env : Env) :
    ∀ (l₁ l₂ : List CB) (st st₁ : State), callList env l₁ st = .ok st₁ →
      callList env (l₁ ++ l₂) st = callList env l₂ st₁ := by
  intro l₁
  induction l₁ with
  | nil => intro l₂ st st₁ h; cases h; rfl
  | cons c cs ih =>
      intro l₂ st st₁ h
      simp only [callList] at h
      simp only [List.cons_append, callList]
      cases hc : call_ env st c with
      | ok stx => rw [hc] at h; exact ih _ _ _ h
      | err e stx => rw [hc] at h; exact Res.noConfusion h

lemma clear_fold_sets :
    ∀ (l : List Signal) (st : State) (s' : Signal),
      ((l.foldl (fun st s => setSet (touch st s) s []) st).sets s') =
        if s' ∈ l then [] else st.sets s' := by
  intro l
  induction l with
  | nil => intro st s'; simp
  | cons x xs ih =>
      intro st s'
      rw [List.foldl_cons, ih]
      by_cases hx : s' ∈ xs
      · simp [hx]
      · by_cases hsx : s' = x
        · subst hsx; simp [hx, setSet, Function.update_same]
        · simp [hx, hsx, setSet, Function.update_noteq hsx, touch_sets]

lemma clear_fold_keys :
    ∀ (l : List Signal) (st : State), (∀ x ∈ l, x ∈ st.keys) →
      (l.foldl (fun st s => setSet (touch st s) s []) st).keys = st.keys := by
  intro l
  induction l with
  | nil => intro st _; rfl
  | cons x xs ih =>
      intro st h
      rw [List.foldl_cons]
      have hk : (setSet (touch st x) x []).keys = st.keys := by
        rw [setSet_keys, touch_keys_of_mem (h x (List.mem_cons_self x xs))]
      rw [ih _ (fun y hy => by rw [hk]; exact h y (List.mem_cons_of_mem x hy)), hk]

/-! ## The claims -/

/-- Claim C1, counterexample: after `once("s", f)` and one emission of
`"s"`, the callback has been invoked once and `responds_to(f, "s")` is
still `true` — the code decrements the counter to `0` and invokes, and
only the *next* emission disconnects; the claim says `responds_to` is
already false immediately after the first emission. -/
theorem once_still_responds_after_first_emission :
    let st := (once initState ["s"] (.cb (.func 0))).state
    let e1 := (emit envI st "s").state
    e1.log = [CB.func 0] ∧ (responds_to e1 (CB.func 0) "s").2 = true ∧
      e1.maxAttr (.func 0) = some (some 0) := by
  decide

/-- Claim C1, amended: for every callback and signal, after `once(S, C)`
and two successive emissions of S, C is invoked exactly once in total;
immediately after the first emission `responds_to(C, S)` is still true
(the exhausted counter is noticed lazily), and only after the second
emission is it false. -/
theorem once_invoked_once_lazy_disconnect (n : Nat) (s : Signal) :
    let c : CB := .func n
    let st := (once initState [s] (.cb c)).state
    let e1 := (emit envI st s).state
    let e2 := (emit envI e1 s).state
    e1.log = [c] ∧ (responds_to e1 c s).2 = true ∧
      e2.log = [c] ∧ (responds_to e2 c s).2 = false := by
  simp [once, on', on_, OnR.state, emit, touch, setSet, addCB, callList, call_,
    hasattrFix, invoke, envI, Res.state, responds_to, disconnect, signals,
    initState, Function.update_same]

/-- Claim C2: registering with `max_calls=2` on `'tick'` and emitting
three times invokes the callback exactly twice; the third emission
processes the callback (`plog`), finds the counter at `0`, disconnects it
from all signals instead of invoking it, so afterwards
`responds_to(cb, 'tick')` is false and `signals(cb)` is empty. -/
theorem max_calls_two_invoked_twice_then_disconnected (n : Nat) (t : Signal) :
    let c : CB := .func n
    let st := (on' initState [t] (.cb c) (some 2)).state
    let e1 := (emit envI st t).state
    let e2 := (emit envI e1 t).state
    let e3 := (emit envI e2 t).state
    e2.log = [c, c] ∧ e3.log = [c, c] ∧
      (responds_to e2 c t).2 = true ∧ (responds_to e3 c t).2 = false ∧
      e3.plog = [c, c, c] ∧ signals e3 c = [] := by
  simp [on', on_, OnR.state, emit, touch, setSet, addCB, callList, call_,
    hasattrFix, invoke, envI, Res.state, responds_to, disconnect, signals,
    initState, Function.update_same]

/-- Claim C3, counterexample: registering the same `(callback, "s")` pair a
second time does change observable registration state — `_on` executes
`callback._max_calls = max_calls` unconditionally, so the remaining-call
counter moves from `2` to `5` even though the registry entry is unchanged. -/
theorem reregistration_overwrites_counter :
    let st1 := (on' initState ["s"] (.cb (.func 0)) (some 2)).state
    let st2 := (on' st1 ["s"] (.cb (.func 0)) (some 5)).state
    st1.maxAttr (.func 0) = some (some 2) ∧
      st2.maxAttr (.func 0) = some (some 5) ∧
      st2.sets "s" = [CB.func 0] := by
  decide

/-- Claim C3, amended: re-registering the same (callback, signal) pair
leaves exactly one registry entry (set semantics) and `emit(S)` still
invokes the callback exactly once per emission; however the callback's
`_max_calls` counter is overwritten with the new registration's
`max_calls` argument rather than left unchanged. -/
theorem reregistration_idempotent_entry (n : Nat) (s : Signal)
    (m1 m2 : Option Int) :
    let c : CB := .func n
    let st1 := (on' initState [s] (.cb c) m1).state
    let st2 := (on' st1 [s] (.cb c) m2).state
    st2.sets s = [c] ∧ st2.maxAttr c = some m2 ∧
      (emit envI ((on' st1 [s] (.cb c) none).state) s).state.log = [c] := by
  simp [on', on_, OnR.state, emit, touch, setSet, addCB, callList, call_,
    hasattrFix, invoke, envI, Res.state, initState, Function.update_same]

/-- Claim C4: a callback registered on two signals with a call limit has a
single shared counter: after `on([a, b], c, max_calls=k+1)`, an emission of
`a` that invokes `c` leaves the one global counter at `k`; with limit `1`,
after the emission of `a` the dispatch on `b` observes the exhausted
counter, does not invoke `c`, and disconnects it from both signals. -/
theorem call_limit_shared_across_signals (n : Nat) (a b : Signal) (k : Int)
    (hab : a ≠ b) (hk : 0 < k) :
    let c : CB := .func n
    let st := (on' initState [a, b] (.cb c) (some k)).state
    let e1 := (emit envI st a).state
    let st1 := (on' initState [a, b] (.cb c) (some 1)).state
    let f1 := (emit envI st1 a).state
    let f2 := (emit envI f1 b).state
    e1.log = [c] ∧ e1.maxAttr c = some (some (k - 1)) ∧
      f2.log = [c] ∧ f2.plog = [c, c] ∧
      (responds_to f2 c a).2 = false ∧ (responds_to f2 c b).2 = false := by
  simp [on', on_, OnR.state, emit, touch, setSet, addCB, callList, call_,
    hasattrFix, invoke, envI, Res.state, responds_to, disconnect, signals,
    initState, Function.update_same, Function.update_noteq, hab, Ne.symm hab,
    not_le.mpr hk]

/-- Witness for claim C4 at `n = 0`, `a = "a"`, `b = "b"`, `k = 1`. -/
theorem call_limit_shared_across_signals_witness :
    let c : CB := .func 0
    let st := (on' initState ["a", "b"] (.cb c) (some 1)).state
    let e1 := (emit envI st "a").state
    let st1 := (on' initState ["a", "b"] (.cb c) (some 1)).state
    let f1 := (emit envI st1 "a").state
    let f2 := (emit envI f1 "b").state
    e1.log = [c] ∧ e1.maxAttr c = some (some (1 - 1)) ∧
      f2.log = [c] ∧ f2.plog = [c, c] ∧
      (responds_to f2 c "a").2 = false ∧ (responds_to f2 c "b").2 = false :=
  call_limit_shared_across_signals 0 "a" "b" 1 (by decide) (by decide)

/-- Claim C5, counterexample: `emit` does iterate over a pre-taken snapshot
(both callbacks are processed), but a callback that *registers* a snapshot
member during its own invocation can change which callbacks the emission
pass invokes: `func 0` re-registers `func 1` with `max_calls=0`, so the
pass disconnects `func 1` instead of invoking it, while with inert
callbacks both are invoked. -/
theorem ninja_registration_changes_invoked_callbacks :
    let st := (on' ((on' initState ["s"] (.cb (.func 0)) none).state)
      ["s"] (.cb (.func 1)) none).state
    st.sets "s" = [CB.func 0, CB.func 1] ∧
      st.maxAttr (.func 1) = some none ∧
      (emit envN st "s").state.log = [CB.func 0] ∧
      (emit envN st "s").state.plog = [CB.func 0, CB.func 1] ∧
      (emit envI st "s").state.log = [CB.func 0, CB.func 1] := by
  decide

/-- Claim C5, amended: `emit(S)` iterates over a copy of S's callback set
taken before the first invocation, so for every environment of callback
behaviours that mutate the registry arbitrarily (but return normally), the
emission completes without any concurrent-modification error and the
sequence of callbacks *processed* by the pass is exactly the pre-taken
snapshot; whether a processed callback is actually invoked, however,
depends on its remaining-call counter at processing time, which an earlier
ninja callback can alter (see the counterexample). -/
theorem emit_processes_pretaken_snapshot (env : Env) (st : State) (s : Signal)
    (hG : GhostSafe env) (hN : NoRaise env) :
    ∃ st', emit env st s = .ok st' ∧
      st'.plog = st.plog ++ (touch st s).sets s := by
  obtain ⟨st', h⟩ := callList_ok env hN ((touch st s).sets s) (touch st s)
  refine ⟨st', h, ?_⟩
  rw [callList_ok_plog env hG _ _ _ h, touch_plog]

/-- Witness for claim C5 (amended) with the inert environment from the
initial state. -/
theorem emit_processes_pretaken_snapshot_witness :
    ∃ st', emit envI initState "s" = .ok st' ∧
      st'.plog = initState.plog ++ (touch initState "s").sets "s" :=
  emit_processes_pretaken_snapshot envI initState "s"
    (fun _ _ => rfl) (fun _ _ => rfl)

/-- Claim C6: `emitting(exit, enter)` emits the enter signal before the
scope body runs (both bodies below receive `st₁`, the state after the
enter emission), and emits the exit signal unconditionally on scope exit:
a normally-completing body is followed by the exit emission, and a raising
body still gets the exit emission, after which the body's exception `e`
keeps propagating (with the post-exit-emission state `st₃`). -/
theorem emitting_enter_first_exit_unconditional (env : Env) (st : State)
    (ex en : Signal) (bodyN bodyE : State → Res)
    (st₁ stN stE st₃ : State) (e : Nat)
    (h₁ : emit env st en = .ok st₁)
    (hN : bodyN st₁ = .ok stN)
    (hE : bodyE st₁ = .err e stE)
    (hX : emit env stE ex = .ok st₃) :
    emitting env st ex (some en) bodyN = emit env stN ex ∧
    emitting env st ex (some en) bodyE = .err e st₃ := by
  constructor
  · simp only [emitting, h₁, hN]
  · simp only [emitting, h₁, hE, hX]

/-- Concrete scenario for claim C6: a callback on `"en"`, one on `"ex"`. -/
def stC6 : State := (on' ((on' initState ["en"] (.cb (.func 0)) none).state)
  ["ex"] (.cb (.func 1)) none).state

/-- State after the enter emission of the C6 scenario. -/
def stC6en : State := (emit envI stC6 "en").state

/-- A body that completes normally, leaving a marker in the ghost log. -/
def bodyN6 : State → Res := fun st => .ok { st with log := st.log ++ [CB.func 9] }

/-- A body that leaves a marker in the ghost log and then raises `5`. -/
def bodyE6 : State → Res := fun st => .err 5 { st with log := st.log ++ [CB.func 9] }

/-- State after the C6 body ran on the post-enter state. -/
def stC6N : State := { stC6en with log := stC6en.log ++ [CB.func 9] }

/-- State after the exit emission of the raising C6 scenario. -/
def stC6X : State := (emit envI stC6N "ex").state

/-- Witness for claim C6 in the concrete scenario. -/
theorem emitting_enter_first_exit_unconditional_witness :
    emitting envI stC6 "ex" (some "en") bodyN6 = emit envI stC6N "ex" ∧
    emitting envI stC6 "ex" (some "en") bodyE6 = .err 5 stC6X :=
  emitting_enter_first_exit_unconditional envI stC6 "ex" "en" bodyN6 bodyE6
    stC6en stC6N stC6N stC6X 5 rfl rfl rfl rfl

/-- Claim C7: if the snapshot for `emit(S)` is `l₁ ++ cb :: l₂`, the
callbacks of `l₁` run normally, and `cb`'s invocation raises exception
`e`, then `emit` returns that same exception with the state exactly as the
raise left it, and the not-yet-invoked callbacks `l₂` are skipped: the
processed sequence ends at `cb`. -/
theorem emit_exception_fail_fast (env : Env) (st : State) (s : Signal)
    (l₁ l₂ : List CB) (cb : CB) (st₁ st₂ : State) (e : Nat)
    (hG : GhostSafe env)
    (hsnap : (touch st s).sets s = l₁ ++ cb :: l₂)
    (h₁ : callList env l₁ (touch st s) = .ok st₁)
    (h₂ : call_ env st₁ cb = .err e st₂) :
    emit env st s = .err e st₂ ∧ st₂.plog = st.plog ++ l₁ ++ [cb] := by
  constructor
  · show callList env ((touch st s).sets s) (touch st s) = _
    rw [hsnap, callList_append env l₁ (cb :: l₂) _ _ h₁]
    simp only [callList]
    rw [h₂]
  · have hp := call_state_plog env hG st₁ cb
    rw [h₂] at hp
    simp only [Res.state] at hp
    rw [hp, callList_ok_plog env hG _ _ _ h₁, touch_plog]

/-- Concrete scenario for claim C7: three callbacks on `"s"`, of which the
second (`func 1`) raises under `envR`. -/
def stC7 : State := (on' ((on' ((on' initState ["s"] (.cb (.func 0)) none).state)
  ["s"] (.cb (.func 1)) none).state) ["s"] (.cb (.func 2)) none).state

/-- State after the first C7 callback ran. -/
def stC7a : State := (callList envR [CB.func 0] (touch stC7 "s")).state

/-- State at the moment the C7 exception propagates. -/
def stC7b : State := (call_ envR stC7a (CB.func 1)).state

/-- Witness for claim C7: the emission aborts with exception `7` after
processing `func 0` and `func 1` only, skipping `func 2`. -/
theorem emit_exception_fail_fast_witness :
    emit envR stC7 "s" = .err 7 stC7b ∧
    stC7b.plog = stC7.plog ++ [CB.func 0] ++ [CB.func 1] :=
  emit_exception_fail_fast envR stC7 "s" [CB.func 0] [CB.func 2] (CB.func 1)
    stC7a stC7b 7
    (fun cb st => by simp only [envR]; split <;> rfl)
    rfl rfl rfl

/-- Claim C8: for every registry state and distinct signals `a`, `b`,
`clear('a')` empties a's callback set and leaves b's untouched, and
`clear()` with no arguments empties the set of every signal present in the
registry while leaving the signal keys themselves in place. -/
theorem clear_empties_given_or_all_signals (st : State) (a b s' : Signal)
    (hab : a ≠ b) (hs : s' ∈ st.keys) :
    (clear st [a]).sets a = [] ∧ (clear st [a]).sets b = st.sets b ∧
    (clear st []).sets s' = [] ∧ (clear st []).keys = st.keys := by
  have hnil : clear st [] = st.keys.foldl (fun st s => setSet (touch st s) s []) st := rfl
  refine ⟨?_, ?_, ?_, ?_⟩
  · simp [clear, setSet, Function.update_same]
  · simp [clear, setSet, Function.update_noteq (Ne.symm hab), touch_sets]
  · rw [hnil, clear_fold_sets, if_pos hs]
  · rw [hnil]; exact clear_fold_keys st.keys st (fun x hx => hx)

/-- Concrete scenario for claim C8: `func 0` on `"a"`, `func 1` on `"b"`. -/
def stC8 : State := (on' ((on' initState ["a"] (.cb (.func 0)) none).state)
  ["b"] (.cb (.func 1)) none).state

/-- Witness for claim C8 in the concrete scenario. -/
theorem clear_empties_given_or_all_signals_witness :
    (clear stC8 ["a"]).sets "a" = [] ∧ (clear stC8 ["a"]).sets "b" = stC8.sets "b" ∧
    (clear stC8 []).sets "a" = [] ∧ (clear stC8 []).keys = stC8.keys :=
  clear_empties_given_or_all_signals stC8 "a" "b" "a" (by decide) (by decide)

/-- Claim C9, counterexample: passing the non-invocable value `3` in the
callback position of `on` does not fail — `isinstance(callback, int)`
selects the decorator form, the int is re-interpreted as `max_calls`, and
`on` returns a registrar without raising (the registry is unchanged, but
no assertion-style error occurs at registration time). -/
theorem int_callback_selects_decorator_no_error :
    (on' initState ["s"] (.int 3) none).isErr = false ∧
    OnR.ret (on' initState ["s"] (.int 3) none) =
      some (.registrar ["s"] (some 3)) ∧
    (on' initState ["s"] (.int 3) none).state.sets "s" = [] ∧
    (on' initState ["s"] (.int 3) none).state.keys = [] := by
  decide

/-- Claim C9, amended: a non-invocable callback value other than an `int`
or `None` (which select the decorator form) makes `on` raise the
`AssertionError` immediately with the registry unchanged; and the eventual
callback handed to `_on` — also via the returned registrar — is checked the
same way: `_on` raises on every non-callable value, touching nothing. -/
theorem noncallable_callback_assertion_error (st st' : State)
    (sigs sigs' : List Signal) (m m' : Option Int) (v w : Val)
    (hc : v.callable = false) (hi : ∀ n, v ≠ Val.int n)
    (hn : v ≠ Val.noneV) (hw : w.callable = false) :
    on' st sigs v m = .assertErr st ∧ on_ st' sigs' w m' = .assertErr st' := by
  constructor
  · cases v with
    | cb c => simp [Val.callable] at hc
    | int k => exact absurd rfl (hi k)
    | str x => rfl
    | noneV => exact absurd rfl hn
  · cases w with
    | cb c => simp [Val.callable] at hw
    | int _ => rfl
    | str _ => rfl
    | noneV => rfl

/-- Witness for claim C9 (amended) at concrete non-callable values. -/
theorem noncallable_callback_assertion_error_witness :
    on' initState ["s"] (.str "x") none = .assertErr initState ∧
    on_ initState ["t"] (.str "y") (some 2) = .assertErr initState :=
  noncallable_callback_assertion_error initState initState ["s"] ["t"]
    none (some 2) (.str "x") (.str "y")
    rfl (fun _ h => Val.noConfusion h) (fun h => Val.noConfusion h) rfl

/-- Claim C10: `on` wraps a bound method in a freshly created wrapper
function: the registry stores the wrapper (`on` also returns it), the
original bound method does not respond to the signal, and registering the
same bound method twice yields two distinct wrapper entries — set
idempotence does not hold for bound methods at the public interface. -/
theorem bound_method_registered_as_fresh_wrapper (k : Nat) (s : Signal) :
    let M : Val := .cb (.method k)
    let r1 := on' initState [s] M none
    let st1 := r1.state
    let st2 := (on' st1 [s] M none).state
    st1.sets s = [CB.wrapper 0] ∧ (responds_to st1 (.method k) s).2 = false ∧
      OnR.ret r1 = some (.cb (.wrapper 0)) ∧
      st2.sets s = [CB.wrapper 0, CB.wrapper 1] ∧
      (st2.sets s).length = 2 ∧ (responds_to st2 (.method k) s).2 = false := by
  simp [on', on_, OnR.state, OnR.ret, touch, setSet, addCB, responds_to,
    initState, Function.update_same]

end Smokesignal
